import Mathlib

set_option maxRecDepth 100000

/-!
Shallow embedding of the private-blockchain ledger (src/src/blockchain.js and the
Block class in src/unnamed/part_000).

Modelling conventions:
* JS strings that flow through the payload codec are modelled as `List Nat` of
  Unicode code points; ledger-level strings (hashes, timestamps, error messages)
  are Lean `String`s.
* Every method of the source returns a Promise.  A method's settled behaviour is
  modelled by `Outcome`: `resolved v` (the promise fulfills with `v`),
  `rejected` (it rejects), `hangs` (neither `resolve` nor `reject` is ever
  reached, so the promise never settles).
* `validateChain` and `getStarsByWalletAddress` iterate with a fire-and-forget
  `async` callback per element and then call `resolve(acc)` synchronously.  Each
  per-element callback awaits a sub-promise that settles synchronously through a
  `.catch(<non-function>)` relay, so its continuation runs two microtask ticks
  later, while a caller awaiting the outer promise resumes after one tick.  The
  deterministic ECMAScript job queue for this shape is modelled explicitly by
  `runQueue`: the relay jobs (one per element, in chain order) are enqueued
  during the synchronous phase, the awaiting caller's resumption job after
  them; each relay enqueues the element's continuation at the tail.
* The SHA256 digest is the external digest collaborator; all ledger operations
  are parameterised by `digest : Block → String`, applied to the block record
  exactly as `SHA256(JSON.stringify(block))` is applied in the source (the
  canonical serialisation is absorbed into the abstract digest function).
-/

/-- Code points of a Lean string literal, used to write JS string values. -/
def codes (s : String) : List Nat := s.toList.map Char.toNat

/-- Structured payloads this program ever stores: the genesis marker object
`\x7bdata: 'Genesis Block'\x7d` and the owned record object
`\x7b"star": star, "owner": address\x7d` built by `submitStar`.  The star
content is opaque to the program and modelled as a string. -/
inductive Payload where
  | genesis : Payload
  | record (star : List Nat) (owner : List Nat) : Payload
deriving DecidableEq

/-- The `owner` property access `data.owner`: `undefined` (`none`) on the
genesis object. -/
def payloadOwner : Payload → Option (List Nat)
  | Payload.genesis => none
  | Payload.record _ owner => some owner

/-- UTF-8 encoding of one code point, as `Buffer.from(str)` performs byte-wise. -/
def utf8Char (c : Nat) : List Nat :=
  if c < 128 then [c]
  else if c < 2048 then [192 + c / 64, 128 + c % 64]
  else if c < 65536 then [224 + c / 4096, 128 + (c / 64) % 64, 128 + c % 64]
  else [240 + c / 262144, 128 + (c / 4096) % 64, 128 + (c / 64) % 64, 128 + c % 64]

/-- UTF-8 encoding of a string of code points. -/
def utf8Str (s : List Nat) : List Nat := (s.map utf8Char).flatten

/-- Lowercase hex digit for a value below 16, as `Buffer.prototype.toString('hex')`. -/
def hexDigit (d : Nat) : Nat := if d < 10 then 48 + d else 87 + d

/-- Two lowercase hex digits of a byte. -/
def hexByte (b : Nat) : List Nat := [hexDigit (b / 16), hexDigit (b % 16)]

/-- Hex text of a byte sequence (`Buffer.from(JSON.stringify(data)).toString('hex')`). -/
def hexStr (bs : List Nat) : List Nat := (bs.map hexByte).flatten

/-- Value of one hex digit character, accepting the cases `parseInt(_, 16)` accepts. -/
def hexVal (c : Nat) : Option Nat :=
  if 48 ≤ c ∧ c ≤ 57 then some (c - 48)
  else if 97 ≤ c ∧ c ≤ 102 then some (c - 87)
  else if 65 ≤ c ∧ c ≤ 70 then some (c - 55)
  else none

/-- The npm `hex2ascii` module: walk the hex text two characters at a time and
emit `String.fromCharCode(parseInt(pair, 16))` — one code point per BYTE, with
no UTF-8 decoding.  `parseInt` parses the longest valid prefix of the pair and
`String.fromCharCode(NaN)` is code point 0. -/
def hex2ascii : List Nat → List Nat
  | [] => []
  | [c] => [(hexVal c).getD 0]
  | c1 :: c2 :: rest =>
      (match hexVal c1, hexVal c2 with
       | some a, some b => 16 * a + b
       | some a, none => a
       | none, _ => 0) :: hex2ascii rest

/-- JSON text `JSON.stringify` produces for the two payload shapes.  Faithful
for field strings free of characters that `JSON.stringify` would escape
(quote, backslash, control characters). -/
def jsonOfPayload : Payload → List Nat
  | Payload.genesis => codes "\x7b\"data\":\"Genesis Block\"\x7d"
  | Payload.record star owner =>
      codes "\x7b\"star\":\"" ++ star ++ codes "\",\"owner\":\"" ++ owner ++ codes "\"\x7d"

/-- Removes an expected literal from the front of a string, or fails. -/
def chopLit : List Nat → List Nat → Option (List Nat)
  | [], s => some s
  | _ :: _, [] => none
  | l :: ls, c :: cs => if c = l then chopLit ls cs else none

/-- Splits at the first double-quote character (code 34), returning the text
before it and the rest after it. -/
def splitQuote : List Nat → Option (List Nat × List Nat)
  | [] => none
  | c :: cs =>
      if c = 34 then some ([], cs)
      else (splitQuote cs).map (fun p => (c :: p.1, p.2))

/-- Modelled restriction of the `JSON.parse` builtin to the payload grammar this
program produces: the genesis marker text and the record object text.  Returns
`none` where `JSON.parse` would throw on text outside this grammar. -/
def jsonReadPayload (s : List Nat) : Option Payload :=
  if s = jsonOfPayload Payload.genesis then some Payload.genesis
  else do
    let r1 ← chopLit (codes "\x7b\"star\":\"") s
    let (star, r2) ← splitQuote r1
    let r3 ← chopLit (codes ",\"owner\":\"") r2
    let (owner, r4) ← splitQuote r3
    if r4 = codes "\x7d" then some (Payload.record star owner) else none

/-- The Block class: `hash` is `null` until sealed, `height` a number, `body`
the hex text of the encoded payload, `timeStamp` the string assigned at append
time (the numeric `0` the constructor writes is rendered `"0"`; it is only ever
digested before the append overwrites it), `previousBlockHash` `null` for the
genesis block. -/
structure Block where
  hash : Option String
  height : Nat
  body : List Nat
  timeStamp : String
  previousBlockHash : Option String
deriving DecidableEq

/-- The Block constructor: `hash = null`, `height = 0`,
`body = Buffer.from(JSON.stringify(data)).toString('hex')`, `timeStamp = 0`,
`previousBlockHash = null`. -/
def Block.construct (data : Payload) : Block :=
  { hash := none
    height := 0
    body := hexStr (utf8Str (jsonOfPayload data))
    timeStamp := "0"
    previousBlockHash := none }

/-- Settled outcome of a Promise-returning method. -/
inductive Outcome (α : Type) where
  | resolved (a : α) : Outcome α
  | rejected : Outcome α
  | hangs : Outcome α
deriving DecidableEq

/-- Block.validate(): save the current hash, null the `hash` field, recompute
`SHA256(JSON.stringify(self))`, restore the saved hash, and resolve with the
comparison (JS `null === string` is false).  Returns the boolean together with
the block as left behind by the method. -/
def blockValidateRun (digest : Block → String) (b : Block) : Bool × Block :=
  let currentHash := b.hash
  let cleared := { b with hash := none }
  let newHash := digest cleared
  (currentHash == some newHash, { cleared with hash := currentHash })

/-- Block.getBData(): decode the hex body with `hex2ascii`, `JSON.parse` it
(a parse failure throws inside the executor, rejecting the promise), then
resolve with the object only when `height > 0`; otherwise neither resolve nor
reject is ever called and the promise never settles. -/
def Block.getBData (b : Block) : Outcome Payload :=
  match jsonReadPayload (hex2ascii b.body) with
  | none => Outcome.rejected
  | some obj => if b.height > 0 then Outcome.resolved obj else Outcome.hangs

/-- One microtask job over a mutable accumulator of type `α`.
`relay f` is the reaction of a `.catch(<non-function>)` attached to an already
settled per-element sub-promise: when processed it merely settles the derived
promise, which enqueues the element's `await` continuation `run f` at the tail
of the queue.  `run f` is that continuation: it performs the element's pushes
(or nothing).  `observe` is the resumption of a caller awaiting the outer
promise, which resolved synchronously: when processed, the caller reads the
accumulator as it stands at that moment. -/
inductive MicroJob (α : Type) where
  | relay (f : α → α) : MicroJob α
  | run (f : α → α) : MicroJob α
  | observe : MicroJob α

/-- Fuel that suffices to drain a queue: a relay spawns one further job, a run
or observe spawns none. -/
def queueFuel {α : Type} (qs : List (MicroJob α)) : Nat :=
  (qs.map (fun j => match j with | MicroJob.relay _ => 2 | _ => 1)).sum

/-- Deterministic processing of the microtask queue, head first, enqueuing at
the tail, exactly as the ECMAScript job queue.  Returns the final accumulator
and the snapshot the observing caller took.  The fuel is only a termination
device; `queueFuel` steps always drain the queue. -/
def runQueue {α : Type} : Nat → α → Option α → List (MicroJob α) → α × Option α
  | 0, acc, obs, _ => (acc, obs)
  | _ + 1, acc, obs, [] => (acc, obs)
  | fuel + 1, acc, obs, MicroJob.relay f :: rest => runQueue fuel acc obs (rest ++ [MicroJob.run f])
  | fuel + 1, acc, obs, MicroJob.run f :: rest => runQueue fuel (f acc) obs rest
  | fuel + 1, acc, obs, MicroJob.observe :: rest =>
      runQueue fuel acc (match obs with | some o => some o | none => some acc) rest

/-- Result of a fire-and-forget forEach scan: the accumulator as the awaiting
caller sees it when it resumes, and its contents once every per-element
continuation has completed. -/
structure ScanResult (α : Type) where
  observed : α
  final : α
deriving DecidableEq

/-- Runs a scan whose synchronous phase enqueued the given per-element jobs in
chain order and whose outer promise resolved synchronously, with the awaiting
caller's resumption enqueued after them. -/
def scanRun {α : Type} (jobs : List (MicroJob α)) (init : α) : ScanResult α :=
  let q := jobs ++ [MicroJob.observe]
  let out := runQueue (queueFuel q) init none q
  { observed := out.2.getD out.1, final := out.1 }

/-- The Blockchain class state: the chain array and the cached height, which
starts at `-1` for an empty ledger. -/
structure Blockchain where
  chain : List Block
  height : Int
deriving DecidableEq

/-- getChainHeight(): resolves with `this.height`. -/
def getChainHeight (bc : Blockchain) : Int := bc.height

/-- getBlockByHeight(height): `chain.filter(p => p.height === height)[0]`; if no
block matches, neither resolve nor reject is called and the promise hangs. -/
def getBlockByHeightRun (bc : Blockchain) (height : Int) : Outcome Block :=
  match (bc.chain.filter (fun p => (p.height : Int) == height)).head? with
  | some b => Outcome.resolved b
  | none => Outcome.hangs

/-- getBlockByHash(hash): `chain.filter(p => p.hash === hash)[0]`; on a miss
neither resolve nor reject is called and the promise hangs. -/
def getBlockByHashRun (bc : Blockchain) (hash : String) : Outcome Block :=
  match (bc.chain.filter (fun p => p.hash == some hash)).head? with
  | some b => Outcome.resolved b
  | none => Outcome.hangs

/-- JS truthiness of the value `validateChain()` resolves with: it is the
`errorLog` ARRAY, and every object is truthy in JS, whether or not the array is
empty.  The `if (isValid)` test in `_addBlock` therefore always passes. -/
def jsArrayTruthy (_errorLog : List String) : Bool := true

/-- The string `block + "is not validated"` pushes: JS string concatenation
coerces the block object to "[object Object]", so the entry never names the
block's height. -/
def tamperEntry : String := "[object Object]is not validated"

/-- The per-block continuation body of the validateChain() forEach callback,
acting on the error log: a height-0 block runs `validate()` and pushes the
genesis message on failure; any other block runs `validate()` (and pushes
`tamperEntry` on failure) ONLY when its `previousBlockHash` equals
`chain[height-1].hash` — on a linkage mismatch nothing at all is pushed.  If
`chain[height-1]` is `undefined`, reading `.hash` throws inside the callback
and nothing is pushed either. -/
def validateStep (digest : Block → String) (chain : List Block) (b : Block)
    (errorLog : List String) : List String :=
  if b.height == 0 then
    if (blockValidateRun digest b).fst then errorLog
    else errorLog ++ ["Genesis Block is not valid"]
  else
    match chain[b.height - 1]? with
    | some prev =>
        if b.previousBlockHash == prev.hash then
          if (blockValidateRun digest b).fst then errorLog
          else errorLog ++ [tamperEntry]
        else errorLog
    | none => errorLog

/-- validateChain(): a fire-and-forget async forEach over the chain followed by
a synchronous `resolve(errorLog)`.  Each block's `validate()` settles through a
`.catch` relay, so each block contributes one relay job in chain order. -/
def validateChainRun (digest : Block → String) (bc : Blockchain) : ScanResult (List String) :=
  scanRun (bc.chain.map (fun b => MicroJob.relay (validateStep digest bc.chain b))) []

/-- The tail of _addBlock after the previous block (if any) has been consulted:
assign the timestamp and height, seal the hash over the block as it stands
(`hash` still holds its pre-seal value, `null` for constructor-fresh blocks),
await validateChain, test the truthiness of the array it resolves with, push
and increment on success — and `resolve(block)` unconditionally afterwards. -/
def sealAndPush (digest : Block → String) (now : Nat) (bc : Blockchain) (block : Block) :
    Outcome Block × Blockchain :=
  let block := { block with timeStamp := Nat.repr now }
  let block := { block with height := (bc.height + 1).toNat }
  let block := { block with hash := some (digest block) }
  let isValid := jsArrayTruthy (validateChainRun digest bc).observed
  if isValid then
    (Outcome.resolved block, { bc with chain := bc.chain ++ [block], height := bc.height + 1 })
  else
    (Outcome.resolved block, bc)

/-- _addBlock(block): read the chain height; when it is above -1, await
getBlockByHeight(self.height) (hanging forever if it never settles) and copy
its hash into `previousBlockHash`; then seal, validate and push as in
`sealAndPush`. -/
def addBlockRun (digest : Block → String) (now : Nat) (bc : Blockchain) (block : Block) :
    Outcome Block × Blockchain :=
  let chainHeight := getChainHeight bc
  if chainHeight > -1 then
    match getBlockByHeightRun bc bc.height with
    | Outcome.resolved prevBlock =>
        sealAndPush digest now bc { block with previousBlockHash := prevBlock.hash }
    | _ => (Outcome.hangs, bc)
  else
    sealAndPush digest now bc block

/-- The Blockchain constructor: start with an empty chain at height -1 and
append the genesis block `new Block(\x7bdata: 'Genesis Block'\x7d)` through
`_addBlock`. -/
def Blockchain.start (digest : Block → String) (now : Nat) : Blockchain :=
  (addBlockRun digest now { chain := [], height := -1 } (Block.construct Payload.genesis)).2

/-- JS String.prototype.split on a one-character separator. -/
def jsSplit (sep : Nat) : List Nat → List (List Nat)
  | [] => [[]]
  | c :: cs =>
      match jsSplit sep cs with
      | h :: t => if c = sep then [] :: h :: t else (c :: h) :: t
      | [] => [[c]]

/-- Longest leading run of decimal digit characters. -/
def leadDigits : List Nat → List Nat
  | [] => []
  | c :: cs => if 48 ≤ c ∧ c ≤ 57 then c :: leadDigits cs else []

/-- Numeric value of a run of decimal digit characters. -/
def digitsToNat (ds : List Nat) : Nat := ds.foldl (fun a c => a * 10 + (c - 48)) 0

/-- JS parseInt with radix 10 auto-detection on the decimal strings this
program feeds it: skip leading whitespace, accept an optional sign, read the
leading decimal digits; `none` models NaN (no digit found).  The `0x` prefix
special case of parseInt is not modelled; it never changes whether the result
is NaN. -/
def jsParseInt (s : List Nat) : Option Int :=
  let s := s.dropWhile (fun c => c == 32 || c == 9 || c == 10 || c == 13 || c == 11 || c == 12)
  match s with
  | 45 :: rest =>
      match leadDigits rest with
      | [] => none
      | ds => some (-(digitsToNat ds : Int))
  | 43 :: rest =>
      match leadDigits rest with
      | [] => none
      | ds => some (digitsToNat ds : Int)
  | _ =>
      match leadDigits s with
      | [] => none
      | ds => some (digitsToNat ds : Int)

/-- submitStar(address, message, signature, star): parse the second
colon-delimited field of the message (`parseInt` of `undefined` or a
non-numeric field is NaN, and `NaN <= 300` is false, so the body falls through
with neither resolve nor reject); when the elapsed time is within 300 seconds
and the external `bitcoinMessage.verify` collaborator accepts, build
`new Block(\x7b"star": star, "owner": address\x7d)` and resolve with
`_addBlock`'s result; on a failed verification the body again falls through
and the promise never settles. -/
def submitStarRun (digest : Block → String) (verify : List Nat → List Nat → List Nat → Bool)
    (now : Nat) (bc : Blockchain) (address message signature star : List Nat) :
    Outcome Block × Blockchain :=
  match ((jsSplit 58 message)[1]?).bind jsParseInt with
  | none => (Outcome.hangs, bc)
  | some msgTime =>
      if (now : Int) - msgTime ≤ 300 then
        if verify message address signature then
          addBlockRun digest now bc (Block.construct (Payload.record star address))
        else (Outcome.hangs, bc)
      else (Outcome.hangs, bc)

/-- The per-block job of the getStarsByWalletAddress forEach callback: the
callback awaits `getBData()`.  A body `JSON.parse` would throw on rejects that
sub-promise, whose `.catch` relay still runs but whose continuation performs no
push; a height-0 block's `getBData()` never settles, so no job at all is ever
enqueued for it; otherwise the continuation pushes the decoded data when
`data.owner === address` and calls `reject()` when it does not — a no-op,
because the outer promise already resolved synchronously. -/
def starJob (address : List Nat) (b : Block) : Option (MicroJob (List Payload)) :=
  match jsonReadPayload (hex2ascii b.body) with
  | none => some (MicroJob.relay id)
  | some data =>
      if b.height == 0 then none
      else some (MicroJob.relay (fun stars =>
        if payloadOwner data == some address then stars ++ [data] else stars))

/-- getStarsByWalletAddress(address): fire-and-forget async forEach over the
chain pushing matching decoded bodies into `stars`, followed by a synchronous
`resolve(stars)`. -/
def getStarsRun (address : List Nat) (bc : Blockchain) : ScanResult (List Payload) :=
  scanRun (bc.chain.filterMap (starJob address)) []

/-- A concrete stand-in for the external SHA256 collaborator, used to evaluate
the model on explicit inputs: a deterministic fingerprint of every digested
field (`hash` is always `null` at the two points the source digests a block,
so it does not participate). -/
def natKey (l : List Nat) : Nat := l.foldl (fun a c => a * 131 + (c + 1)) 7

/-- Deterministic digest string over the block's fields other than `hash`. -/
def toyDigest (b : Block) : String :=
  "d" ++ Nat.repr (natKey b.body) ++ "h" ++ Nat.repr b.height ++ "t" ++ b.timeStamp
    ++ "p" ++ b.previousBlockHash.getD "null"

/-- A wallet address used by the concrete scenarios. -/
def addr1 : List Nat := codes "addr1"

/-- A star payload used by the concrete scenarios. -/
def starA : List Nat := codes "ra 10 dec 20"

/-- A signature verifier that accepts everything. -/
def alwaysVerify : List Nat → List Nat → List Nat → Bool := fun _ _ _ => true

/-- A signature verifier that rejects everything. -/
def neverVerify : List Nat → List Nat → List Nat → Bool := fun _ _ _ => false

/-- A freshly constructed ledger: genesis block only. -/
def bc0 : Blockchain := Blockchain.start toyDigest 5

/-- The sealed genesis block of `bc0`. -/
def gBlock : Block := bc0.chain.headD (Block.construct Payload.genesis)

/-- `bc0` after one star owned by `addr1` was submitted with a fresh challenge
and an accepted signature. -/
def bc1 : Blockchain :=
  (submitStarRun toyDigest alwaysVerify 6 bc0 addr1 (codes "addr1:1:starRegistry")
    (codes "sig") starA).2

/-- `bc1` with the body of the stored block at height 1 mutated after sealing;
every other block is intact. -/
def bc1Tampered : Blockchain :=
  { bc1 with chain := bc1.chain.map (fun b =>
      if b.height == 1 then { b with body := b.body ++ [97] } else b) }

/-- A height-1 block whose `previousBlockHash` does not match the stored genesis
hash and whose own `validate()` is false. -/
def badLinkBlock : Block :=
  { hash := some "deadbeef"
    height := 1
    body := hexStr (utf8Str (jsonOfPayload (Payload.record starA addr1)))
    timeStamp := "6"
    previousBlockHash := some "bogus" }

/-- A two-block chain whose height-1 block has broken linkage. -/
def bc2 : Blockchain := { chain := bc0.chain ++ [badLinkBlock], height := 1 }

/-- A one-block ledger whose genesis block was tampered with after sealing, so
the whole chain is invalid. -/
def bcBad : Blockchain :=
  { chain := [{ gBlock with body := gBlock.body ++ [97] }], height := 0 }


/-- Reading a hex digit back gives the value it encodes. -/
theorem hexVal_hexDigit (d : Nat) (h : d < 16) : hexVal (hexDigit d) = some d := by
  unfold hexVal hexDigit
  by_cases h10 : d < 10
  · rw [if_pos h10, if_pos (by omega : 48 ≤ 48 + d ∧ 48 + d ≤ 57)]
    congr 1
    omega
  · rw [if_neg h10, if_neg (by omega : ¬(48 ≤ 87 + d ∧ 87 + d ≤ 57)),
      if_pos (by omega : 97 ≤ 87 + d ∧ 87 + d ≤ 102)]
    congr 1
    omega

/-- hex2ascii inverts the hex encoding of a byte sequence. -/
theorem hex2ascii_hexStr (bs : List Nat) (h : ∀ b ∈ bs, b < 256) :
    hex2ascii (hexStr bs) = bs := by
  induction bs with
  | nil => rfl
  | cons b rest ih =>
      have hb : b < 256 := h b (List.mem_cons_self _ _)
      have hrest : ∀ x ∈ rest, x < 256 := fun x hx => h x (List.mem_cons_of_mem _ hx)
      have h1 : hexVal (hexDigit (b / 16)) = some (b / 16) :=
        hexVal_hexDigit _ (by omega)
      have h2 : hexVal (hexDigit (b % 16)) = some (b % 16) :=
        hexVal_hexDigit _ (Nat.mod_lt _ (by omega))
      show hex2ascii (hexStr (b :: rest)) = b :: rest
      have hshape : hexStr (b :: rest) = hexDigit (b / 16) :: hexDigit (b % 16) :: hexStr rest := by
        simp [hexStr, hexByte]
      rw [hshape, hex2ascii, h1, h2, ih hrest]
      show (16 * (b / 16) + b % 16) :: rest = b :: rest
      congr 1
      omega

/-- UTF-8 encoding is the identity on ASCII code points. -/
theorem utf8Str_ascii (s : List Nat) (h : ∀ c ∈ s, c < 128) : utf8Str s = s := by
  induction s with
  | nil => rfl
  | cons c cs ih =>
      have hc : c < 128 := h c (List.mem_cons_self _ _)
      have hcs : ∀ x ∈ cs, x < 128 := fun x hx => h x (List.mem_cons_of_mem _ hx)
      simp only [utf8Str, List.map_cons, List.flatten_cons] at *
      rw [utf8Char, if_pos hc, ih hcs]
      rfl

/-- Chopping a literal off a string that starts with it leaves the rest. -/
theorem chopLit_append (l r : List Nat) : chopLit l (l ++ r) = some r := by
  induction l with
  | nil => rfl
  | cons c cs ih => simp [chopLit, ih]

/-- Splitting at the first quote of `xs ++ 34 :: rest` recovers `xs` and `rest`
when `xs` is quote-free. -/
theorem splitQuote_append (xs rest : List Nat) (h : 34 ∉ xs) :
    splitQuote (xs ++ 34 :: rest) = some (xs, rest) := by
  induction xs with
  | nil => simp [splitQuote]
  | cons c cs ih =>
      have hc : c ≠ 34 := fun hc => h (by simp [hc])
      have hcs : 34 ∉ cs := fun hm => h (List.mem_cons_of_mem _ hm)
      simp [splitQuote, hc, ih hcs]

/-- Parsing the printed record-object text recovers the record, for quote-free
field strings. -/
theorem jsonRead_jsonOf_record (star owner : List Nat) (hs : 34 ∉ star) (ho : 34 ∉ owner) :
    jsonReadPayload (jsonOfPayload (Payload.record star owner))
      = some (Payload.record star owner) := by
  have hmid : codes "\",\"owner\":\"" = 34 :: codes ",\"owner\":\"" := by decide
  have hend : codes "\"\x7d" = 34 :: codes "\x7d" := by decide
  have hgen : chopLit (codes "\x7b\"star\":\"") (jsonOfPayload Payload.genesis) = none := by
    decide
  have hrec : jsonOfPayload (Payload.record star owner)
      = codes "\x7b\"star\":\""
        ++ (star ++ 34 :: (codes ",\"owner\":\"" ++ (owner ++ 34 :: codes "\x7d"))) := by
    simp [jsonOfPayload, hmid, hend]
  have hneq : jsonOfPayload (Payload.record star owner) ≠ jsonOfPayload Payload.genesis := by
    intro h
    rw [h] at hrec
    have hsome : chopLit (codes "\x7b\"star\":\"") (jsonOfPayload Payload.genesis)
        = some (star ++ 34 :: (codes ",\"owner\":\"" ++ (owner ++ 34 :: codes "\x7d"))) := by
      rw [hrec, chopLit_append]
    rw [hgen] at hsome
    exact Option.noConfusion hsome
  unfold jsonReadPayload
  rw [if_neg hneq, hrec]
  simp [chopLit_append,
    splitQuote_append star (codes ",\"owner\":\"" ++ (owner ++ 34 :: codes "\x7d")) hs,
    splitQuote_append owner (codes "\x7d") ho]

/-- Decoding a constructed block's body (after the append phase has raised its
height above 0) recovers the payload, for field strings of ASCII code points
containing no double quote. -/
theorem getBData_construct_roundtrip (star owner : List Nat) (h : Nat)
    (hs : ∀ c ∈ star, c < 128 ∧ c ≠ 34) (ho : ∀ c ∈ owner, c < 128 ∧ c ≠ 34)
    (hh : 0 < h) :
    Block.getBData { Block.construct (Payload.record star owner) with height := h }
      = Outcome.resolved (Payload.record star owner) := by
  have hlitA : ∀ c ∈ codes "\x7b\"star\":\"", c < 128 := by decide
  have hlitB : ∀ c ∈ codes "\",\"owner\":\"", c < 128 := by decide
  have hlitC : ∀ c ∈ codes "\"\x7d", c < 128 := by decide
  have hascii : ∀ c ∈ jsonOfPayload (Payload.record star owner), c < 128 := by
    intro c hc
    simp only [jsonOfPayload, List.append_assoc, List.mem_append] at hc
    rcases hc with hc | hc | hc | hc | hc
    exacts [hlitA c hc, (hs c hc).1, hlitB c hc, (ho c hc).1, hlitC c hc]
  have hbytes : ∀ b ∈ utf8Str (jsonOfPayload (Payload.record star owner)), b < 256 := by
    rw [utf8Str_ascii _ hascii]
    exact fun b hb => lt_trans (hascii b hb) (by omega)
  have hsq : 34 ∉ star := fun hm => (hs 34 hm).2 rfl
  have hoq : 34 ∉ owner := fun hm => (ho 34 hm).2 rfl
  show Block.getBData
      { hash := none
        height := h
        body := hexStr (utf8Str (jsonOfPayload (Payload.record star owner)))
        timeStamp := "0"
        previousBlockHash := none } = Outcome.resolved (Payload.record star owner)
  unfold Block.getBData
  simp only
  rw [hex2ascii_hexStr _ hbytes, utf8Str_ascii _ hascii,
    jsonRead_jsonOf_record star owner hsq hoq]
  simp [hh]

/-- C1: the claim says an append validates the whole resulting chain, pushes
and increments only if it validates, and otherwise leaves the chain unchanged
and surfaces ChainInvalid.  The code instead pushes unconditionally: on
`bcBad`, whose single (tampered) genesis block makes `validateChain` report an
error, `_addBlock` still appends the candidate, increments the height, and
resolves with the block — no error is ever surfaced (`validateChain` resolves
with the `errorLog` array, which is truthy in JS regardless of its contents,
and the promise never rejects). -/
theorem addBlock_commits_despite_invalid_chain :
    (validateChainRun toyDigest bcBad).final = ["Genesis Block is not valid"] ∧
    (addBlockRun toyDigest 9 bcBad (Block.construct (Payload.record starA addr1))).2.chain.length
      = bcBad.chain.length + 1 ∧
    (addBlockRun toyDigest 9 bcBad (Block.construct (Payload.record starA addr1))).2.height
      = bcBad.height + 1 ∧
    (addBlockRun toyDigest 9 bcBad (Block.construct (Payload.record starA addr1))).1
      ≠ Outcome.hangs ∧
    (addBlockRun toyDigest 9 bcBad (Block.construct (Payload.record starA addr1))).1
      ≠ Outcome.rejected := by decide

/-- C2: the claim says a height-1 block whose `previousBlockHash` mismatches
the stored genesis hash yields a linkage error naming height 1, plus an
independent tamper error since its `validate()` is false, without the block
being skipped.  In the code the whole validation of a block sits inside
`else if (block.previousBlockHash === self.chain[block.height-1].hash)`, so a
linkage mismatch produces no error at all and the block's `validate()` is
never consulted: the chain `bc2` ends the scan with an empty error log both as
observed by an awaiting caller and after every callback has completed. -/
theorem validateChain_silent_on_broken_link :
    bc2.chain = [gBlock, badLinkBlock] ∧
    badLinkBlock.height = 1 ∧
    badLinkBlock.previousBlockHash ≠ gBlock.hash ∧
    (blockValidateRun toyDigest badLinkBlock).fst = false ∧
    (validateChainRun toyDigest bc2).final = [] ∧
    (validateChainRun toyDigest bc2).observed = [] := by decide

/-- C3: the claim says mutating one stored block's body yields a non-empty
error list identifying that height, produced before the aggregate result is
returned.  On `bc1Tampered` (height-1 body mutated after sealing, everything
else intact) the awaiting caller resumes with the error array still empty —
the finding lives only in later microtasks — and even the eventually pushed
entry is the fixed string `tamperEntry`, which contains no digit and names no
height. -/
theorem validateChain_tamper_finding_lost :
    bc1Tampered.chain.length = 2 ∧
    (bc1Tampered.chain[1]?.map (fun b => (blockValidateRun toyDigest b).fst)) = some false ∧
    (validateChainRun toyDigest bc1Tampered).observed = [] ∧
    (validateChainRun toyDigest bc1Tampered).final = [tamperEntry] ∧
    tamperEntry.toList.any Char.isDigit = false := by decide

/-- C4: the claim says an expired challenge (elapsed over 300 seconds) returns
a distinguishable ChallengeExpired error with the height unchanged.  The code
has no else-branch for `currTime - msgTime <= 300`: at 400 seconds elapsed the
promise never settles — there is no error at all — and the chain state is
untouched. -/
theorem submitStar_expired_challenge_hangs :
    (1000 : Int) - 600 > 300 ∧
    submitStarRun toyDigest alwaysVerify 1000 bc0 addr1 (codes "addr1:600:starRegistry")
      (codes "sig") starA = (Outcome.hangs, bc0) := by decide

/-- C5: the claim says a fresh challenge with a failing signature verification
returns a distinguishable InvalidSignature error with the height unchanged.
The code has no else-branch for `if (msgValid)`: when the external verifier
returns false the promise never settles — no error is surfaced — and the
chain state is untouched. -/
theorem submitStar_bad_signature_hangs :
    (1000 : Int) - 900 ≤ 300 ∧
    submitStarRun toyDigest neverVerify 1000 bc0 addr1 (codes "addr1:900:starRegistry")
      (codes "sig") starA = (Outcome.hangs, bc0) := by decide

/-- C6: the claim says recordsByOwner returns exactly the decoded payloads of
the non-genesis blocks owned by the queried identity.  On `bc1`, whose single
non-genesis block decodes to a record owned by `addr1`, the promise resolves
synchronously with the `stars` array before any per-element callback has run:
the awaiting caller observes an empty list, and the matching payload is pushed
into the array only in later microtasks. -/
theorem getStars_findings_lost :
    bc1.chain.length = 2 ∧
    (bc1.chain[1]?.map Block.getBData) = some (Outcome.resolved (Payload.record starA addr1)) ∧
    (getStarsRun addr1 bc1).observed = [] ∧
    (getStarsRun addr1 bc1).final = [Payload.record starA addr1] := by decide

/-- C7: the claim says a lookup miss returns a distinguishable NotFound result.
In both lookups the code only calls `resolve(block)` when the filter found a
block; on a miss neither resolve nor reject ever runs, so the promise never
settles: no NotFound result (nor any other result) reaches the caller. -/
theorem lookup_miss_never_settles :
    getBlockByHashRun bc1 "nohash" = Outcome.hangs ∧
    getBlockByHeightRun bc1 5 = Outcome.hangs ∧
    getBlockByHeightRun bc1 (-1) = Outcome.hangs ∧
    bc1.height = 1 := by decide

/-- C8: for every sealed block and every digest collaborator, validate()
resolves true exactly when the digest recomputed with the `hash` field treated
as absent (nulled, as at sealing time) equals the stored hash, and the method
leaves the block exactly as it found it: the stored hash is restored
regardless of the outcome. -/
theorem validate_iff_digest_match (digest : Block → String) (b : Block)
    (_hsealed : b.hash.isSome = true) :
    ((blockValidateRun digest b).fst = true ↔ b.hash = some (digest { b with hash := none })) ∧
    (blockValidateRun digest b).snd = b := by
  constructor
  · show (b.hash == some (digest { b with hash := none })) = true ↔ _
    exact beq_iff_eq
  · rfl

/-- Witness for C8 at the concrete digest collaborator and the sealed genesis
block of the concrete ledger. -/
theorem validate_iff_digest_match_witness :
    ((blockValidateRun toyDigest gBlock).fst = true
        ↔ gBlock.hash = some (toyDigest { gBlock with hash := none })) ∧
    (blockValidateRun toyDigest gBlock).snd = gBlock :=
  validate_iff_digest_match toyDigest gBlock (by decide)

/-- C9, counterexample: for the payload whose star text is the single code
point 233 ("é"), construction UTF-8-encodes the JSON text to bytes before
hex-encoding, but getBData maps each decoded byte to its own code point
(hex2ascii performs no UTF-8 decoding), so decoding the freshly constructed
block's body returns the two code points 195, 169 instead — the decode is not
an exact inverse of the encode. -/
theorem construct_getBData_roundtrip_fails :
    Block.getBData { Block.construct (Payload.record [233] [97]) with height := 1 }
      = Outcome.resolved (Payload.record [195, 169] [97]) ∧
    Payload.record ([195, 169] : List Nat) [97] ≠ Payload.record [233] [97] := by decide

/-- C9, amended: for every record payload whose star and owner strings consist
of ASCII code points (below 128) free of double quotes, decoding the body of
the block constructed from it (once its height has been raised above 0)
returns a value equal to the payload. -/
theorem construct_getBData_roundtrip_ascii (star owner : List Nat) (h : Nat)
    (hs : ∀ c ∈ star, c < 128 ∧ c ≠ 34) (ho : ∀ c ∈ owner, c < 128 ∧ c ≠ 34)
    (hh : 0 < h) :
    Block.getBData { Block.construct (Payload.record star owner) with height := h }
      = Outcome.resolved (Payload.record star owner) :=
  getBData_construct_roundtrip star owner h hs ho hh

/-- Witness for the amended C9 at a concrete ASCII payload. -/
theorem construct_getBData_roundtrip_ascii_witness :
    Block.getBData
        { Block.construct (Payload.record (codes "ra 10 dec 20") (codes "addr1"))
            with height := 1 }
      = Outcome.resolved (Payload.record (codes "ra 10 dec 20") (codes "addr1")) :=
  construct_getBData_roundtrip_ascii (codes "ra 10 dec 20") (codes "addr1") 1
    (by decide) (by decide) (by decide)

/-- C10: when the second colon-delimited field of the challenge message does
not parse as an integer, `parseInt` yields NaN, `currTime - NaN <= 300` is
false, and the body of submitStar falls through without calling resolve or
reject: the promise never settles and the chain and height are unchanged. -/
theorem submitStar_nan_challenge_hangs (digest : Block → String)
    (verify : List Nat → List Nat → List Nat → Bool) (now : Nat) (bc : Blockchain)
    (address message signature star : List Nat)
    (h : ((jsSplit 58 message)[1]?).bind jsParseInt = none) :
    submitStarRun digest verify now bc address message signature star
      = (Outcome.hangs, bc) := by
  unfold submitStarRun
  rw [h]

/-- Witness for C10 at a concrete challenge message whose second field is not
numeric. -/
theorem submitStar_nan_challenge_hangs_witness :
    submitStarRun toyDigest alwaysVerify 1000 bc0 addr1
      (codes "addr1:notanumber:starRegistry") (codes "sig") starA
      = (Outcome.hangs, bc0) :=
  submitStar_nan_challenge_hangs toyDigest alwaysVerify 1000 bc0 addr1
    (codes "addr1:notanumber:starRegistry") (codes "sig") starA (by decide)
